import Mathlib

/-!
Shallow embedding of the workflow engine in `src/workflow.py`
(class `Workflow`, its step dispatcher `_execute_step`, the condition
evaluator `_evaluate_condition`, the interactive confirmation gate
`_get_user_confirmation`, and the codec `to_dict` / `from_dict`).

Python dictionaries are modelled as association lists preserving
insertion order; Python exceptions as `Except String`; the external
collaborators (console input, the text-generation service, the
filesystem, and Python `eval` on the substituted condition string) as
an explicit environment record of pure functions.
-/

namespace CliAgent

/-- Characters of the placeholder syntax and of Python string repr,
built from their code points. -/
def obraceC : Char := Char.ofNat 123

def cbraceC : Char := Char.ofNat 125

def squoteC : Char := Char.ofNat 39

def dquoteC : Char := Char.ofNat 34

def backslashC : Char := Char.ofNat 92

def dotC : Char := Char.ofNat 46

/-- A single-quote as a one-character string (used in Python f-string
style error messages). -/
def sq : String := String.singleton squoteC

/-- Values stored in step `arguments` and in result records: the Python
values the engine actually manipulates (strings, booleans, `None`). -/
inductive Value where
  | str (s : String)
  | bool (b : Bool)
  | none
deriving DecidableEq

/-- A result record: the open string-keyed mapping produced by one step
execution (`Dict` in the source). -/
abbrev ResultRecord := List (String × Value)

/-- The result store `self.results`: step identifier to result record. -/
abbrev ResultStore := List (String × ResultRecord)

/-- Dictionary lookup (`d.get(k)` / `k in d`). -/
def assocFind {α : Type} : List (String × α) → String → Option α
  | [], _ => Option.none
  | (k, v) :: rest, key => if k = key then some v else assocFind rest key

/-- In-place replacement of the value stored under a key. -/
def assocReplace {α : Type} : List (String × α) → String → α →
    List (String × α)
  | [], _, _ => []
  | (k, w) :: rest, key, v =>
    if k = key then (key, v) :: assocReplace rest key v
    else (k, w) :: assocReplace rest key v

/-- Dictionary assignment `d[k] = v`: replaces in place if the key is
present (Python dicts keep the original insertion position), else
appends. -/
def assocSet {α : Type} (l : List (String × α)) (key : String) (v : α) :
    List (String × α) :=
  if (assocFind l key).isSome then assocReplace l key v
  else l ++ [(key, v)]

/-- Python truthiness of an optional value (`if x:` where `x` came from
`d.get(k)`): absent keys and `None` are falsy, `""` is falsy, `False`
is falsy. -/
def pyTruthy : Option Value → Bool
  | Option.none => false
  | some Value.none => false
  | some (Value.str s) => s ≠ ""
  | some (Value.bool b) => b

/-- Python truthiness of an optional string (`if not self.start_step:`
and `while current_step_id:`). -/
def pyTruthyStr : Option String → Bool
  | Option.none => false
  | some s => s ≠ ""

/-- Python `x or y` on optional strings
(`start_from or self.start_step`). -/
def pyOrStr : Option String → Option String → Option String
  | some s, b => if s = "" then b else some s
  | Option.none, b => b

/-- Python `str()` of a value, as used in f-string interpolation. -/
def pyStrV : Value → String
  | Value.str s => s
  | Value.bool b => if b then "True" else "False"
  | Value.none => "None"

/-- Python `str()` of an optional value (`.get` that returned `None`). -/
def pyStrOpt : Option Value → String
  | Option.none => "None"
  | some v => pyStrV v

/-- One character of Python `repr` of a string, with `q` the chosen
quote character. -/
def escapeChar (q : Char) (c : Char) : String :=
  if c = backslashC then String.mk [backslashC, backslashC]
  else if c = q then String.mk [backslashC, q]
  else if c = Char.ofNat 10 then String.mk [backslashC, Char.ofNat 110]
  else if c = Char.ofNat 13 then String.mk [backslashC, Char.ofNat 114]
  else if c = Char.ofNat 9 then String.mk [backslashC, Char.ofNat 116]
  else String.singleton c

/-- Python `repr` of a string: single quotes, switching to double
quotes when the text contains a single quote but no double quote. -/
def strRepr (s : String) : String :=
  let hasSingle := s.data.contains squoteC
  let hasDouble := s.data.contains dquoteC
  let q := if hasSingle && !hasDouble then dquoteC else squoteC
  String.singleton q ++ String.join (s.data.map (escapeChar q)) ++
    String.singleton q

/-- Python `repr` of a value, used by the placeholder substitution
(`replace_var` returns `repr(self.results[step_id][key])`). -/
def pyRepr : Value → String
  | Value.str s => strRepr s
  | Value.bool b => if b then "True" else "False"
  | Value.none => "None"

/-- Model of `replace_var` inside `_evaluate_condition`: the replacement text for a
placeholder referencing `results[stepId][key]`. -/
def replaceVar (results : ResultStore) (stepId key : String) : String :=
  match assocFind results stepId with
  | some record =>
    match assocFind record key with
    | some v => pyRepr v
    | Option.none => "None"
  | Option.none => "None"

/-- The greedy split performed by the regex groups: the last dot of the
placeholder interior that leaves both groups nonempty. -/
def lastDotSplit (l : List Char) : Option (List Char × List Char) :=
  let good := (List.range l.length).filter
    (fun p => (l.get? p == some dotC) && Nat.ble 1 p &&
      Nat.blt (p + 1) l.length)
  match good.getLast? with
  | some p => some (l.take p, l.drop (p + 1))
  | Option.none => Option.none

/-- The scan of `re.sub` over the condition string, with fuel bounding
the number of consumed characters (structural recursion so that the
kernel can evaluate it): each placeholder (open brace, interior with a
dot, close brace) is replaced by `replaceVar`; text that does not
complete a placeholder is kept and scanning resumes at the next
character. -/
def substCharsF (results : ResultStore) : Nat → List Char → List Char
  | 0, l => l
  | _, [] => []
  | Nat.succ n, c :: cs =>
    if c = obraceC then
      let inner := cs.takeWhile (fun d => d ≠ cbraceC)
      let rest := cs.drop inner.length
      if rest = [] then c :: substCharsF results n cs
      else
        match lastDotSplit inner with
        | some (g1, g2) =>
          (replaceVar results (String.mk g1) (String.mk g2)).data ++
            substCharsF results n rest.tail
        | Option.none => c :: substCharsF results n cs
    else c :: substCharsF results n cs

/-- The scan with enough fuel to consume the whole string. -/
def substChars (results : ResultStore) (l : List Char) : List Char :=
  substCharsF results l.length l

/-- The full placeholder substitution of `_evaluate_condition`. -/
def substPlaceholders (results : ResultStore) (condition : String) :
    String :=
  String.mk (substChars results condition.data)

/-- The closed enum `WorkflowStepType` of the source. -/
inductive WorkflowStepType where
  | code_generation
  | code_editing
  | code_review
  | code_refactoring
  | test_generation
  | documentation
  | user_input
  | file_operation
  | conditional
  | loop
deriving DecidableEq

/-- The `step_type.value` string of each enum member. -/
def stepTypeValue : WorkflowStepType → String
  | .code_generation => "code_generation"
  | .code_editing => "code_editing"
  | .code_review => "code_review"
  | .code_refactoring => "code_refactoring"
  | .test_generation => "test_generation"
  | .documentation => "documentation"
  | .user_input => "user_input"
  | .file_operation => "file_operation"
  | .conditional => "conditional"
  | .loop => "loop"

/-- Enum construction `WorkflowStepType(s)`: construction from a value string,
`Option.none` when the string is not a member (Python raises). -/
def stepTypeOfString (s : String) : Option WorkflowStepType :=
  if s = "code_generation" then some .code_generation
  else if s = "code_editing" then some .code_editing
  else if s = "code_review" then some .code_review
  else if s = "code_refactoring" then some .code_refactoring
  else if s = "test_generation" then some .test_generation
  else if s = "documentation" then some .documentation
  else if s = "user_input" then some .user_input
  else if s = "file_operation" then some .file_operation
  else if s = "conditional" then some .conditional
  else if s = "loop" then some .loop
  else Option.none

/-- The dataclass `WorkflowStep`. -/
structure WorkflowStep where
  step_type : WorkflowStepType
  description : String
  arguments : List (String × Value)
  condition : Option String := Option.none
  next_on_success : Option String := Option.none
  next_on_failure : Option String := Option.none
deriving DecidableEq

/-- The engine state of class `Workflow` (the model interface is part
of the environment, not of the state). -/
structure Workflow where
  name : String
  description : String
  steps : List (String × WorkflowStep)
  start_step : Option String
  results : ResultStore
  interactive_mode : Bool
deriving DecidableEq

/-- Embedding of `Workflow.add_step`: store the step under the identifier (silently
replacing) and make it the start step when `not self.start_step`. -/
def add_step (w : Workflow) (step_id : String) (step : WorkflowStep) :
    Workflow :=
  { w with
    steps := assocSet w.steps step_id step
    start_step :=
      if pyTruthyStr w.start_step then w.start_step else some step_id }

/-- A filesystem read failure: `FileNotFoundError` (caught separately
by several handlers) or any other `Exception`. -/
inductive FileErr where
  | notFound (msg : String)
  | other (msg : String)

/-- The `str(e)` text of a filesystem read failure. -/
def fileErrMsg : FileErr → String
  | .notFound msg => msg
  | .other msg => msg

/-- One console response inside `_get_user_confirmation`
(already lowercased); an `editResp` carries the lines typed before the
END sentinel. -/
inductive UserResp where
  | yes
  | no
  | editResp (lines : List String)
  | other (s : String)

/-- The external collaborators of the engine, as pure functions:
console input, the generation service (`generate_content(...).text`),
the filesystem, Python `eval` composed with `bool()` on the substituted
condition string (`Except.error` is a raised exception with its
message), and the stream of confirmation responses per step. -/
structure Env where
  userInput : String → String
  generate : String → String
  readFile : String → Except FileErr String
  writeFile : String → String → Except String Unit
  pyEval : String → Except String Bool
  confirmResponses : String → ResultRecord → List UserResp

/-- The mutation `self.results.setdefault(step_id, {})["error"] = str(e)` of
`_evaluate_condition`. -/
def storeSetError (results : ResultStore) (stepId msg : String) :
    ResultStore :=
  assocSet results stepId
    (assocSet ((assocFind results stepId).getD []) "error" (Value.str msg))

/-- The `str(TypeError)` raised by `re.sub` when the condition is not a
string. -/
def reSubTypeErrMsg : String :=
  "expected string or bytes-like object"

/-- Embedding of `Workflow._evaluate_condition`: substitute placeholders, evaluate;
on any exception return `false`, recording the message under the step
identifier when one was supplied. The condition is a `Value` because
`CONDITIONAL`/`LOOP` pass a raw argument value. -/
def evaluateCondition (env : Env) (results : ResultStore)
    (condition : Value) (stepId : Option String) : Bool × ResultStore :=
  match condition with
  | Value.str s =>
    match env.pyEval (substPlaceholders results s) with
    | Except.ok b => (b, results)
    | Except.error msg =>
      match stepId with
      | some sid => (false, storeSetError results sid msg)
      | Option.none => (false, results)
  | _ =>
    match stepId with
    | some sid => (false, storeSetError results sid reSubTypeErrMsg)
    | Option.none => (false, results)

/-- The fence opener of the code-extraction regex. -/
def fenceOpen : String := "```python\n"

/-- The fence closer of the code-extraction regex. -/
def fenceClose : String := "\n```"

/-- The `re.search` of the python code fence with a non-greedy group: text
between the first fence opener and the first closer after it. -/
def extractFenced (s : String) : Option String :=
  match s.splitOn fenceOpen with
  | [] => Option.none
  | [_] => Option.none
  | _ :: rest =>
    let after := String.intercalate fenceOpen rest
    match after.splitOn fenceClose with
    | [] => Option.none
    | [_] => Option.none
    | g :: _ => some g

/-- Extracted code: the fenced group stripped, else the raw response. -/
def extractCode (response : String) : String :=
  match extractFenced response with
  | some g => g.trim
  | Option.none => response

/-- Outcome of resolving the source code of
CODE_EDITING/REVIEW/REFACTORING/TEST_GENERATION/DOCUMENTATION: a
propagating exception, a recoverable error record, or the code. -/
inductive SourceRes where
  | raised (msg : String)
  | errRecord (msg : String)
  | codeVal (v : Value)

/-- The shared source-resolution logic of those handlers: read from a
truthy `filename` (FileNotFoundError becomes a recoverable record, any
other read failure propagates), else pull `code` from the result of
`previous_step`, else the step-specific missing-source message. -/
def resolveSourceCode (env : Env) (results : ResultStore)
    (args : List (String × Value)) (missingMsg : String) : SourceRes :=
  let filenameV := assocFind args "filename"
  if pyTruthy filenameV then
    match env.readFile (pyStrOpt filenameV) with
    | Except.ok contents => .codeVal (Value.str contents)
    | Except.error (.notFound _) =>
      .errRecord ("ファイル " ++ pyStrOpt filenameV ++ " が見つかりません")
    | Except.error (.other msg) => .raised msg
  else
    match assocFind args "previous_step" with
    | some (Value.str p) =>
      if p = "" then .errRecord missingMsg
      else
        match assocFind results p with
        | some record =>
          .codeVal ((assocFind record "code").getD (Value.str ""))
        | Option.none => .errRecord missingMsg
    | _ => .errRecord missingMsg

/-- What `_execute_step` produces: the returned record or the raised
exception, together with the file writes it performed. -/
structure StepOut where
  outcome : Except String ResultRecord
  writes : List (String × String)

/-- A successor (`next_on_success` / `next_on_failure`) as a stored `next_step`
value. -/
def optIdValue : Option String → Value
  | some s => Value.str s
  | Option.none => Value.none

/-- The TypeError message of `f.write(x)` for a non-string `x`. -/
def writeTypeErrMsg (v : Value) : String :=
  "write() argument must be str, not " ++
    (match v with
     | Value.none => "None"
     | Value.bool _ => "bool"
     | Value.str _ => "str")

/-- Python `x is None` on an argument-lookup outcome. -/
def pyIsNone : Option Value → Bool
  | Option.none => true
  | some Value.none => true
  | some _ => false

/-- The missing-argument message of the CONDITIONAL handler. -/
def condRequiredMsg : String :=
  "CONDITIONAL ステップには " ++ sq ++ "condition" ++ sq ++ " 引数が必要です"

/-- The missing-argument message of the LOOP handler. -/
def loopRequiredMsg : String :=
  "LOOP ステップには " ++ sq ++ "condition" ++ sq ++ " と " ++ sq ++
    "body_step" ++ sq ++ " が必要です"

/-- Embedding of `Workflow._execute_step`: the per-type dispatcher. The match over
the enum is exhaustive, mirroring the closed cascade of the source. -/
def executeStep (env : Env) (results : ResultStore)
    (step : WorkflowStep) : StepOut :=
  let args := step.arguments
  match step.step_type with
  | .user_input =>
    let prompt :=
      match assocFind args "prompt" with
      | some v => pyStrV v
      | Option.none => "入力してください: "
    ⟨Except.ok [("input", Value.str (env.userInput prompt))], []⟩
  | .code_generation =>
    let task :=
      match assocFind args "task" with
      | some v => pyStrV v
      | Option.none => ""
    let response :=
      (env.generate ("Pythonで" ++ task ++ "を実装するコードを生成してください。")).trim
    let code := extractCode response
    ⟨Except.ok [("code", Value.str code),
                ("full_response", Value.str response)], []⟩
  | .code_editing =>
    let instruction :=
      match assocFind args "instruction" with
      | some v => pyStrV v
      | Option.none => ""
    match resolveSourceCode env results args "編集するコードが指定されていません" with
    | .raised msg => ⟨Except.error msg, []⟩
    | .errRecord msg => ⟨Except.ok [("error", Value.str msg)], []⟩
    | .codeVal codeV =>
      let prompt := "以下のPythonコードを編集してください。指示: " ++ instruction ++
        "\nコード:\n" ++ pyStrV codeV
      let response := (env.generate prompt).trim
      let edited := extractCode response
      let record : ResultRecord :=
        [("code", Value.str edited), ("original_code", codeV),
         ("full_response", Value.str response)]
      let filenameV := assocFind args "filename"
      if pyTruthy filenameV && pyTruthy (assocFind args "save") then
        match env.writeFile (pyStrOpt filenameV) edited with
        | Except.ok _ =>
          ⟨Except.ok record, [(pyStrOpt filenameV, edited)]⟩
        | Except.error msg => ⟨Except.error msg, []⟩
      else ⟨Except.ok record, []⟩
  | .file_operation =>
    let operationV := assocFind args "operation"
    let filenameV := assocFind args "filename"
    if !pyTruthy filenameV then
      ⟨Except.ok [("error", Value.str "ファイル名が指定されていません")], []⟩
    else
      let fn := pyStrOpt filenameV
      if operationV = some (Value.str "read") then
        match env.readFile fn with
        | Except.ok contents =>
          ⟨Except.ok [("content", Value.str contents)], []⟩
        | Except.error e =>
          ⟨Except.ok [("error",
            Value.str ("ファイル読み込みエラー: " ++ fileErrMsg e))], []⟩
      else if operationV = some (Value.str "write") then
        let contentV0 := assocFind args "content"
        let contentV :=
          if pyTruthy contentV0 then contentV0
          else
            match assocFind args "previous_step" with
            | some (Value.str p) =>
              if p = "" then contentV0
              else
                match assocFind results p with
                | some record =>
                  some ((assocFind record "code").getD (Value.str ""))
                | Option.none => contentV0
            | _ => contentV0
        match contentV with
        | some (Value.str s) =>
          match env.writeFile fn s with
          | Except.ok _ =>
            ⟨Except.ok [("filename", Value.str fn),
                        ("success", Value.bool true)], [(fn, s)]⟩
          | Except.error msg =>
            ⟨Except.ok [("error",
              Value.str ("ファイル書き込みエラー: " ++ msg))], []⟩
        | some v =>
          ⟨Except.ok [("error",
            Value.str ("ファイル書き込みエラー: " ++ writeTypeErrMsg v))], []⟩
        | Option.none =>
          ⟨Except.ok [("error",
            Value.str ("ファイル書き込みエラー: " ++
              writeTypeErrMsg Value.none))], []⟩
      else
        ⟨Except.ok [("error",
          Value.str ("未サポートのファイル操作: " ++ pyStrOpt operationV))], []⟩
  | .code_review =>
    match resolveSourceCode env results args "レビューするコードが指定されていません" with
    | .raised msg => ⟨Except.error msg, []⟩
    | .errRecord msg => ⟨Except.ok [("error", Value.str msg)], []⟩
    | .codeVal codeV =>
      let review :=
        (env.generate ("以下のPythonコードをレビューして改善点を提案してください:\n" ++
          pyStrV codeV)).trim
      ⟨Except.ok [("review", Value.str review)], []⟩
  | .code_refactoring =>
    match resolveSourceCode env results args
        "リファクタリングするコードが指定されていません" with
    | .raised msg => ⟨Except.error msg, []⟩
    | .errRecord msg => ⟨Except.ok [("error", Value.str msg)], []⟩
    | .codeVal codeV =>
      let response :=
        (env.generate ("以下のPythonコードをリファクタリングしてください:\n" ++
          pyStrV codeV)).trim
      let newCode := extractCode response
      ⟨Except.ok [("code", Value.str newCode), ("original_code", codeV),
                  ("full_response", Value.str response)], []⟩
  | .test_generation =>
    match resolveSourceCode env results args
        "テスト生成対象のコードが指定されていません" with
    | .raised msg => ⟨Except.error msg, []⟩
    | .errRecord msg => ⟨Except.ok [("error", Value.str msg)], []⟩
    | .codeVal codeV =>
      let response :=
        (env.generate ("以下のPythonコード用のテストコードを生成してください:\n" ++
          pyStrV codeV)).trim
      let testCode := extractCode response
      ⟨Except.ok [("code", Value.str testCode),
                  ("full_response", Value.str response)], []⟩
  | .documentation =>
    match resolveSourceCode env results args
        "ドキュメント生成対象のコードが指定されていません" with
    | .raised msg => ⟨Except.error msg, []⟩
    | .errRecord msg => ⟨Except.ok [("error", Value.str msg)], []⟩
    | .codeVal codeV =>
      let response :=
        (env.generate ("以下のPythonコードにドキュメント文字列とコメントを追加してください:\n" ++
          pyStrV codeV)).trim
      let docCode := extractCode response
      ⟨Except.ok [("code", Value.str docCode),
                  ("full_response", Value.str response)], []⟩
  | .conditional =>
    match assocFind args "condition" with
    | Option.none => ⟨Except.error condRequiredMsg, []⟩
    | some Value.none => ⟨Except.error condRequiredMsg, []⟩
    | some v =>
      let b := (evaluateCondition env results v Option.none).1
      let nxt := if b then step.next_on_success else step.next_on_failure
      ⟨Except.ok [("condition", Value.bool b),
                  ("next_step", optIdValue nxt)], []⟩
  | .loop =>
    let condV := assocFind args "condition"
    let bodyV := assocFind args "body_step"
    if pyIsNone condV || pyIsNone bodyV then
      ⟨Except.error loopRequiredMsg, []⟩
    else
      let b := (evaluateCondition env results (condV.getD Value.none)
        Option.none).1
      if b then
        ⟨Except.ok [("loop", Value.bool true),
                    ("next_step", bodyV.getD Value.none)], []⟩
      else
        ⟨Except.ok [("loop", Value.bool false),
                    ("next_step", optIdValue step.next_on_success)], []⟩

/-- Embedding of `Workflow._get_user_confirmation`: consume console responses until
a decision. `y` accepts; `n` rejects; `e` with a `code` field present
reads replacement lines and, when their join is nonempty, writes it
into the record (the same object already stored in `self.results`) and
accepts; anything else re-prompts. `Option.none` models the
`EOFError` raised by `input()` when the console is exhausted. -/
def getUserConfirmation : List UserResp → ResultRecord →
    Option (Bool × ResultRecord)
  | [], _ => Option.none
  | UserResp.yes :: _, record => some (true, record)
  | UserResp.no :: _, record => some (false, record)
  | UserResp.editResp lines :: rest, record =>
    if (assocFind record "code").isSome then
      let newCode := String.intercalate "\n" lines
      if newCode = "" then getUserConfirmation rest record
      else some (true, assocSet record "code" (Value.str newCode))
    else getUserConfirmation rest record
  | UserResp.other _ :: rest, record => getUserConfirmation rest record

/-- The lookup `result.get("next_step", current_step.next_on_success)` turned into
the next loop identifier; a stored `None` ends the traversal, a stored
boolean becomes its `str` (it would not be found among the steps). -/
def nextIdOf (record : ResultRecord) (step : WorkflowStep) :
    Option String :=
  match assocFind record "next_step" with
  | some (Value.str s) => some s
  | some Value.none => Option.none
  | some (Value.bool b) => some (if b then "True" else "False")
  | Option.none => step.next_on_success

/-- Outcome of a traversal: normal return of `self.results`, a raised
`ValueError`, or exhausted fuel (the source loop has no iteration cap).
Each carries the trace of step identifiers that reached execution. -/
inductive RunResult where
  | done (results : ResultStore) (visited : List String)
  | raisedErr (msg : String) (results : ResultStore) (visited : List String)
  | outOfFuel (results : ResultStore) (visited : List String)
      (current : String)
deriving DecidableEq

/-- The trace component of any traversal outcome. -/
def visitedOf : RunResult → List String
  | .done _ v => v
  | .raisedErr _ _ v => v
  | .outOfFuel _ v _ => v

/-- The message of the raised `ValueError` for an identifier missing
from the steps collection. -/
def stepNotFoundMsg (stepId : String) : String :=
  "ステップ " ++ sq ++ stepId ++ sq ++ " が見つかりません"

/-- The message of the raised `ValueError` when no start identifier is
available. -/
def noStartMsg : String := "開始ステップが指定されていません"

/-- The `str(EOFError)` seen when `input()` hits end of input during
confirmation; the surrounding `try` of `execute` catches it. -/
def eofMsg : String := "EOF when reading a line"

/-- The `while current_step_id:` loop of `Workflow.execute`, with
explicit fuel. Per iteration: stop on a falsy identifier; raise on an
unknown one; a truthy guard condition is evaluated with the current
identifier (an evaluation error records under it) and skips to
`next_on_failure` when false; otherwise the step runs, its record (or
`error` record for a raised exception) is stored, the interactive gate
may halt or replace the stored record, and the next identifier is the
`next_step` of the record if present, else `next_on_success` (exceptions go
to `next_on_failure`). -/
def executeFrom (env : Env) (w : Workflow) :
    Nat → Option String → ResultStore → List String → RunResult
  | _, Option.none, results, visited => .done results visited
  | fuel, some cur, results, visited =>
    if cur = "" then .done results visited
    else
      match fuel with
      | 0 => .outOfFuel results visited cur
      | Nat.succ n =>
        match assocFind w.steps cur with
        | Option.none => .raisedErr (stepNotFoundMsg cur) results visited
        | some step =>
          let visited1 := visited ++ [cur]
          let guardRes : Bool × ResultStore :=
            match step.condition with
            | some c =>
              if c = "" then (true, results)
              else evaluateCondition env results (Value.str c) (some cur)
            | Option.none => (true, results)
          if guardRes.1 = false then
            executeFrom env w n step.next_on_failure guardRes.2 visited1
          else
            let results1 := guardRes.2
            match (executeStep env results1 step).outcome with
            | Except.error msg =>
              executeFrom env w n step.next_on_failure
                (assocSet results1 cur [("error", Value.str msg)]) visited1
            | Except.ok record =>
              let results2 := assocSet results1 cur record
              if w.interactive_mode &&
                  !(step.step_type = WorkflowStepType.user_input) then
                match getUserConfirmation
                    (env.confirmResponses cur record) record with
                | Option.none =>
                  executeFrom env w n step.next_on_failure
                    (assocSet results2 cur [("error", Value.str eofMsg)])
                    visited1
                | some (decision, record1) =>
                  let results3 := assocSet results2 cur record1
                  if decision then
                    executeFrom env w n (nextIdOf record1 step) results3
                      visited1
                  else .done results3 visited1
              else
                executeFrom env w n (nextIdOf record step) results2 visited1

/-- Embedding of `Workflow.execute`: pick `start_from or self.start_step`, raise on
a falsy start, then run the traversal loop over `self.results`. -/
def execute (env : Env) (w : Workflow) (fuel : Nat)
    (startFrom : Option String) : RunResult :=
  match pyOrStr startFrom w.start_step with
  | Option.none => .raisedErr noStartMsg w.results []
  | some s =>
    if s = "" then .raisedErr noStartMsg w.results []
    else executeFrom env w fuel (some s) w.results []

/-- One entry of the persisted workflow document
(`WorkflowStep.to_dict` shape). -/
structure StepDoc where
  step_type : String
  description : String
  arguments : List (String × Value)
  condition : Option String
  next_on_success : Option String
  next_on_failure : Option String
deriving DecidableEq

/-- The persisted workflow document (`Workflow.to_dict` shape). -/
structure WorkflowDoc where
  name : String
  description : String
  start_step : Option String
  steps : List (String × StepDoc)
deriving DecidableEq

/-- Embedding of `WorkflowStep.to_dict`. -/
def stepToDict (s : WorkflowStep) : StepDoc :=
  { step_type := stepTypeValue s.step_type
    description := s.description
    arguments := s.arguments
    condition := s.condition
    next_on_success := s.next_on_success
    next_on_failure := s.next_on_failure }

/-- The per-step decoding of `Workflow.from_dict`: fails when the
`step_type` string is not an enum member. -/
def stepFromDict (d : StepDoc) : Option WorkflowStep :=
  (stepTypeOfString d.step_type).map fun t =>
    { step_type := t
      description := d.description
      arguments := d.arguments
      condition := d.condition
      next_on_success := d.next_on_success
      next_on_failure := d.next_on_failure }

/-- The step loop of `Workflow.from_dict`, inserting each decoded step
into the existing steps dictionary of the workflow. -/
def decodeSteps (acc : List (String × WorkflowStep)) :
    List (String × StepDoc) → Option (List (String × WorkflowStep))
  | [] => some acc
  | (stepId, d) :: rest =>
    match stepFromDict d with
    | some st => decodeSteps (assocSet acc stepId st) rest
    | Option.none => Option.none

/-- Embedding of `Workflow.from_dict` on an existing workflow instance. -/
def fromDict (w : Workflow) (d : WorkflowDoc) : Option Workflow :=
  (decodeSteps w.steps d.steps).map fun steps =>
    { w with
      name := d.name
      description := d.description
      start_step := d.start_step
      steps := steps }

/-- Embedding of `Workflow.to_dict`. -/
def toDict (w : Workflow) : WorkflowDoc :=
  { name := w.name
    description := w.description
    start_step := w.start_step
    steps := w.steps.map fun p => (p.1, stepToDict p.2) }

/-- The fresh instance `cls("", "", model_interface)` on which
`load_from_file` and `create_workflow_from_prompt` call `from_dict`. -/
def emptyWorkflow : Workflow :=
  { name := ""
    description := ""
    steps := []
    start_step := Option.none
    results := []
    interactive_mode := false }

/-- The chain the spec sentence of claim C8 describes, written from the
spec words: start step, then the `next_on_success` of each step, ending when
an identifier is absent (None) or missing from the steps collection. -/
def specChain (steps : List (String × WorkflowStep)) :
    Nat → Option String → List String
  | _, Option.none => []
  | 0, some _ => []
  | Nat.succ n, some cur =>
    match assocFind steps cur with
    | Option.none => []
    | some st => cur :: specChain steps n st.next_on_success

/-- The chain the code actually walks: as `specChain`, but the empty
string also ends the traversal (`while current_step_id:` is a
truthiness test). -/
def codeChain (steps : List (String × WorkflowStep)) :
    Nat → Option String → List String
  | _, Option.none => []
  | fuel, some cur =>
    if cur = "" then []
    else
      match fuel with
      | 0 => []
      | Nat.succ n =>
        match assocFind steps cur with
        | Option.none => []
        | some st => cur :: codeChain steps n st.next_on_success

/-- A concrete environment for witnesses and counterexamples: console
input is `"u"`, the generation service answers `"resp"`, reads fail
with `FileNotFoundError`, writes succeed, and `eval` understands
exactly the literals `True` and `False`. -/
def ceEnv : Env :=
  { userInput := fun _ => "u"
    generate := fun _ => "resp"
    readFile := fun _ => Except.error (.notFound "file not found")
    writeFile := fun _ _ => Except.ok ()
    pyEval := fun s =>
      if s = "True" then Except.ok true
      else if s = "False" then Except.ok false
      else Except.error "invalid syntax"
    confirmResponses := fun _ _ => [] }

/-- A USER_INPUT step with the given successors. -/
def uiStep (next fail : Option String) : WorkflowStep :=
  { step_type := .user_input
    description := ""
    arguments := []
    condition := Option.none
    next_on_success := next
    next_on_failure := fail }

/-- A CODE_EDITING step naming a nonexistent file, with distinct
success and failure successors. -/
def c1Step : WorkflowStep :=
  { step_type := .code_editing
    description := ""
    arguments := [("filename", Value.str "missing.py")]
    condition := Option.none
    next_on_success := some "b"
    next_on_failure := some "c" }

/-- A workflow whose start step is `c1Step`. -/
def c1Wf : Workflow :=
  { name := ""
    description := ""
    steps :=
      [("a", c1Step),
       ("b", uiStep Option.none Option.none),
       ("c", uiStep Option.none Option.none)]
    start_step := some "a"
    results := []
    interactive_mode := false }

/-- A CONDITIONAL step lacking the required `condition` argument. -/
def c2Step : WorkflowStep :=
  { step_type := .conditional
    description := ""
    arguments := []
    condition := Option.none
    next_on_success := some "x"
    next_on_failure := some "d" }

/-- A workflow whose CONDITIONAL start step lacks the required
`condition` argument. -/
def c2Wf : Workflow :=
  { name := ""
    description := ""
    steps := [("c", c2Step), ("d", uiStep Option.none Option.none)]
    start_step := some "c"
    results := []
    interactive_mode := false }

/-- A LOOP step lacking the required `condition` argument. -/
def c2LoopStep : WorkflowStep :=
  { step_type := .loop
    description := ""
    arguments := [("body_step", Value.str "b")]
    condition := Option.none
    next_on_success := Option.none
    next_on_failure := Option.none }

/-- A workflow whose LOOP start step lacks the required `condition`
argument. -/
def c2LoopWf : Workflow :=
  { name := ""
    description := ""
    steps := [("l", c2LoopStep)]
    start_step := some "l"
    results := []
    interactive_mode := false }

/-- A workflow whose CONDITIONAL start step has a syntactically broken
condition. -/
def c5Wf : Workflow :=
  { name := ""
    description := ""
    steps :=
      [("c",
        { step_type := .conditional
          description := ""
          arguments := [("condition", Value.str "((")]
          condition := Option.none
          next_on_success := some "x"
          next_on_failure := Option.none })]
    start_step := some "c"
    results := []
    interactive_mode := false }

/-- A workflow in which the empty string is a genuine step identifier
and is the successor of the start step. -/
def c8Wf : Workflow :=
  { name := ""
    description := ""
    steps := [("a", uiStep (some "") Option.none),
              ("", uiStep Option.none Option.none)]
    start_step := some "a"
    results := []
    interactive_mode := false }

/-- A workflow whose start identifier is the empty string. -/
def c9Wf : Workflow :=
  { name := ""
    description := ""
    steps := []
    start_step := some ""
    results := []
    interactive_mode := false }

/-- A FILE_OPERATION write step with a literal empty-string `content`
argument and no `previous_step`. -/
def c10Step : WorkflowStep :=
  { step_type := .file_operation
    description := ""
    arguments := [("operation", Value.str "write"),
                  ("filename", Value.str "out.txt"),
                  ("content", Value.str "")]
    condition := Option.none
    next_on_success := Option.none
    next_on_failure := Option.none }

theorem assocFind_append {α : Type} (a b : List (String × α)) (k : String) :
    assocFind (a ++ b) k =
      match assocFind a k with
      | some v => some v
      | Option.none => assocFind b k := by
  induction a with
  | nil => simp [assocFind]
  | cons p rest ih =>
    by_cases h : p.1 = k <;> simp [assocFind, h, ih]

theorem assocSet_fresh {α : Type} (l : List (String × α)) (k : String)
    (v : α) (h : assocFind l k = Option.none) :
    assocSet l k v = l ++ [(k, v)] := by
  simp [assocSet, h]

theorem assocFind_assocSet_self {α : Type} (l : List (String × α))
    (k : String) (v : α) : assocFind (assocSet l k v) k = some v := by
  cases hs : assocFind l k with
  | none =>
    rw [assocSet_fresh l k v hs, assocFind_append]
    simp [hs, assocFind]
  | some w =>
    have hrep : ∀ (m : List (String × α)), assocFind m k = some w →
        assocFind (assocReplace m k v) k = some v := by
      intro m
      induction m with
      | nil => intro h; simp [assocFind] at h
      | cons p rest ih =>
        obtain ⟨pk, pv⟩ := p
        intro h
        by_cases hp : pk = k
        · simp [assocFind, assocReplace, hp]
        · simp only [assocFind, hp, if_neg, if_false] at h
          simp [assocFind, assocReplace, hp, ih h]
    have : (assocFind l k).isSome := by simp [hs]
    simp only [assocSet, this, if_pos]
    exact hrep l hs

theorem substCharsF_no_brace (results : ResultStore) :
    ∀ (n : Nat) (l : List Char), (∀ c ∈ l, c ≠ obraceC) →
      substCharsF results n l = l := by
  intro n
  induction n with
  | zero => intro l _; cases l <;> rfl
  | succ n ih =>
    intro l h
    cases l with
    | nil => rfl
    | cons c cs =>
      have hc : c ≠ obraceC := h c (List.mem_cons_self ..)
      simp [substCharsF, hc,
        ih cs (fun d hd => h d (List.mem_cons_of_mem _ hd))]

theorem substPlaceholders_no_brace (results : ResultStore) (s : String)
    (h : ∀ c ∈ s.data, c ≠ obraceC) : substPlaceholders results s = s := by
  unfold substPlaceholders substChars
  rw [substCharsF_no_brace results _ _ h]

/-- Claim C9 counterexample: on a workflow whose `start_step` is the
empty string — set, not unset — `add_step` still overwrites it, because
the source tests `if not self.start_step:` (truthiness), not absence. -/
theorem C9_counterexample :
    c9Wf.start_step = some "" ∧
    some "" ≠ (Option.none : Option String) ∧
    (add_step c9Wf "x" (uiStep Option.none Option.none)).start_step =
      some "x" :=
  ⟨rfl, by decide, rfl⟩

/-- Claim C9 (amended): `add_step` stores the given step under the
given identifier, silently replacing any step already stored there, and
sets `start_step` to the given identifier exactly when `start_step` was
previously unset or the empty string; otherwise `start_step` is
unchanged. -/
theorem C9_add_step :
    ∀ (w : Workflow) (step_id : String) (step : WorkflowStep),
      (add_step w step_id step).steps = assocSet w.steps step_id step ∧
      assocFind (add_step w step_id step).steps step_id = some step ∧
      (add_step w step_id step).start_step =
        (if w.start_step = Option.none ∨ w.start_step = some "" then
          some step_id
        else w.start_step) := by
  intro w sid st
  refine ⟨rfl, ?_, ?_⟩
  · exact assocFind_assocSet_self w.steps sid st
  · show (if pyTruthyStr w.start_step then w.start_step else some sid) = _
    cases h : w.start_step with
    | none => simp [pyTruthyStr]
    | some s =>
      by_cases hs : s = "" <;> simp [pyTruthyStr, hs]

/-- A USER_INPUT step guarded by the literal condition `"False"`. -/
def c6Step : WorkflowStep :=
  { step_type := .user_input
    description := ""
    arguments := []
    condition := some "False"
    next_on_success := some "s"
    next_on_failure := Option.none }

/-- A workflow whose start step is the guarded step `c6Step`. -/
def c6Wf : Workflow :=
  { name := ""
    description := ""
    steps := [("g", c6Step)]
    start_step := some "g"
    results := []
    interactive_mode := false }

/-- Claim C6: when the guard condition of a step evaluates to false without
an evaluation error, the traversal stores nothing (the result store is
passed on unchanged) and continues at the `next_on_failure` of the step. -/
theorem C6_guard_skip :
    ∀ (env : Env) (w : Workflow) (n : Nat) (cur : String)
      (step : WorkflowStep) (c : String) (results : ResultStore)
      (visited : List String),
      cur ≠ "" →
      assocFind w.steps cur = some step →
      step.condition = some c →
      c ≠ "" →
      env.pyEval (substPlaceholders results c) = Except.ok false →
      executeFrom env w (Nat.succ n) (some cur) results visited =
        executeFrom env w n step.next_on_failure results
          (visited ++ [cur]) := by
  intro env w n cur step c results visited hcur hfind hcond hc he
  simp [executeFrom, hcur, hfind, hcond, hc, evaluateCondition, he]

/-- Claim C6 witness: `C6_guard_skip` applied to the concrete guarded
workflow; the skip leaves the empty store empty and ends the run. -/
theorem C6_witness :
    ("g" ≠ "") ∧
    assocFind c6Wf.steps "g" = some c6Step ∧
    c6Step.condition = some "False" ∧
    ("False" ≠ "") ∧
    ceEnv.pyEval (substPlaceholders [] "False") = Except.ok false ∧
    executeFrom ceEnv c6Wf 1 (some "g") [] [] =
      executeFrom ceEnv c6Wf 0 c6Step.next_on_failure [] ["g"] :=
  ⟨by decide, rfl, rfl, by decide, rfl,
   C6_guard_skip ceEnv c6Wf 0 "g" c6Step "False" [] []
     (by decide) rfl rfl (by decide) rfl⟩

/-- Claim C4 counterexample: a guard-condition evaluation error writes
an `error` entry into the record already stored under `"s"`, and the
edit action of the confirmation gate replaces the `code` entry of the record
it was handed — both mutate an already-stored record. -/
theorem C4_counterexample :
    (evaluateCondition ceEnv [("s", [("x", Value.str "1")])]
        (Value.str "((") (some "s")).2 =
      [("s", [("x", Value.str "1"),
              ("error", Value.str "invalid syntax")])] ∧
    [("s", [("x", Value.str "1"), ("error", Value.str "invalid syntax")])] ≠
      [("s", [("x", Value.str "1")])] ∧
    getUserConfirmation [UserResp.editResp ["new code"]]
        [("code", Value.str "old")] =
      some (true, [("code", Value.str "new code")]) ∧
    [("code", Value.str "new code")] ≠ [("code", Value.str "old")] :=
  ⟨by decide, by decide, by decide, by decide⟩

/-- Claim C4 (amended): a stored record changes after storage in
exactly two engine operations besides re-execution — a guard-condition
evaluation error writes an `error` entry into the record under the
evaluated identifier (`storeSetError`), and the edit action of the
confirmation gate replaces the `code` entry with the nonempty edited text;
otherwise condition evaluation returns the store unchanged and the gate
returns the record unchanged. -/
theorem C4_mutation :
    (∀ (env : Env) (results : ResultStore) (c s : String),
      (evaluateCondition env results (Value.str c) (some s)).2 = results ∨
      ∃ msg, (evaluateCondition env results (Value.str c) (some s)).2 =
        storeSetError results s msg) ∧
    (∀ (resps : List UserResp) (record : ResultRecord) (decision : Bool)
      (record1 : ResultRecord),
      getUserConfirmation resps record = some (decision, record1) →
      record1 = record ∨
      ∃ code, code ≠ "" ∧
        record1 = assocSet record "code" (Value.str code)) := by
  constructor
  · intro env results c s
    unfold evaluateCondition
    cases h : env.pyEval (substPlaceholders results c) with
    | ok b => left; simp [h]
    | error msg => right; exact ⟨msg, by simp [h]⟩
  · intro resps
    induction resps with
    | nil => intro record d r1 h; simp [getUserConfirmation] at h
    | cons r rest ih =>
      intro record d r1 h
      cases r with
      | yes =>
        simp [getUserConfirmation] at h
        left; exact h.2.symm
      | no =>
        simp [getUserConfirmation] at h
        left; exact h.2.symm
      | editResp lines =>
        simp only [getUserConfirmation] at h
        by_cases h1 : (assocFind record "code").isSome
        · rw [if_pos h1] at h
          by_cases h2 : String.intercalate "\n" lines = ""
          · rw [if_pos h2] at h
            exact ih record d r1 h
          · rw [if_neg h2] at h
            simp at h
            right
            exact ⟨String.intercalate "\n" lines, h2, h.2.symm⟩
        · rw [if_neg h1] at h
          exact ih record d r1 h
      | other s =>
        simp only [getUserConfirmation] at h
        exact ih record d r1 h

/-- Claim C4 witness: applying the gate clause of `C4_mutation` to an
accepted record. -/
theorem C4_witness :
    getUserConfirmation [UserResp.yes] [("k", Value.str "v")] =
      some (true, [("k", Value.str "v")]) ∧
    ([("k", Value.str "v")] = ([("k", Value.str "v")] : ResultRecord) ∨
      ∃ code, code ≠ "" ∧
        ([("k", Value.str "v")] : ResultRecord) =
          assocSet [("k", Value.str "v")] "code" (Value.str code)) :=
  ⟨rfl, C4_mutation.2 [UserResp.yes] [("k", Value.str "v")] true
    [("k", Value.str "v")] rfl⟩

/-- Claim C5 counterexample: a CONDITIONAL step whose condition is the
broken expression `"(("` — the evaluator errors, returns false, and the
record stored under `"c"` has no `error` entry, because the CONDITIONAL
handler invokes the evaluator without a step identifier. -/
theorem C5_counterexample :
    ceEnv.pyEval "((" = Except.error "invalid syntax" ∧
    execute ceEnv c5Wf 5 Option.none =
      RunResult.done
        [("c", [("condition", Value.bool false),
                ("next_step", Value.none)])] ["c"] ∧
    assocFind [("condition", Value.bool false), ("next_step", Value.none)]
        "error" = Option.none :=
  ⟨rfl, by decide, by decide⟩

/-- Claim C5 (amended): the condition evaluator never raises and fails
closed, returning false on any evaluation error; the error is recorded
under the current step identifier only when one is supplied, which
happens for guard conditions — the CONDITIONAL and LOOP handlers invoke
the evaluator without a step identifier, so their evaluation errors
leave no `error` entry. -/
theorem C5_fails_closed :
    (∀ (env : Env) (results : ResultStore) (c msg : String),
      env.pyEval (substPlaceholders results c) = Except.error msg →
      evaluateCondition env results (Value.str c) Option.none =
        (false, results)) ∧
    (∀ (env : Env) (results : ResultStore) (c s msg : String),
      env.pyEval (substPlaceholders results c) = Except.error msg →
      evaluateCondition env results (Value.str c) (some s) =
        (false, storeSetError results s msg)) ∧
    (∀ (env : Env) (results : ResultStore) (step : WorkflowStep)
      (c : String),
      step.step_type = WorkflowStepType.conditional →
      assocFind step.arguments "condition" = some (Value.str c) →
      (executeStep env results step).outcome =
        Except.ok [("condition", Value.bool
            (evaluateCondition env results (Value.str c) Option.none).1),
          ("next_step", optIdValue
            (if (evaluateCondition env results (Value.str c)
                Option.none).1 then
              step.next_on_success
            else step.next_on_failure))]) ∧
    (∀ (env : Env) (results : ResultStore) (step : WorkflowStep)
      (c : String) (body : Value),
      step.step_type = WorkflowStepType.loop →
      assocFind step.arguments "condition" = some (Value.str c) →
      assocFind step.arguments "body_step" = some body →
      body ≠ Value.none →
      (executeStep env results step).outcome =
        Except.ok
          (if (evaluateCondition env results (Value.str c)
              Option.none).1 then
            [("loop", Value.bool true), ("next_step", body)]
          else
            [("loop", Value.bool false),
             ("next_step", optIdValue step.next_on_success)])) := by
  refine ⟨?_, ?_, ?_, ?_⟩
  · intro env results c msg he
    simp [evaluateCondition, he]
  · intro env results c s msg he
    simp [evaluateCondition, he]
  · intro env results step c ht hc
    obtain ⟨stype, desc, args, cond, ns, nf⟩ := step
    simp only at ht hc
    subst ht
    simp only [executeStep, hc]
  · intro env results step c body ht hc hb hbn
    obtain ⟨stype, desc, args, cond, ns, nf⟩ := step
    simp only at ht hc hb
    subst ht
    have hpn : pyIsNone (some body) = false := by
      cases body <;> simp [pyIsNone] at hbn ⊢
    simp only [executeStep, hc, hb, hpn, pyIsNone, Bool.or_false]
    cases hev : (evaluateCondition env results (Value.str c)
        Option.none).1 <;> simp [hev]

/-- Claim C5 witness: the clauses of `C5_fails_closed` applied to the
broken condition `"(("` under the concrete environment. -/
theorem C5_witness :
    ceEnv.pyEval (substPlaceholders [] "((") =
      Except.error "invalid syntax" ∧
    evaluateCondition ceEnv [] (Value.str "((") Option.none =
      (false, []) ∧
    evaluateCondition ceEnv [] (Value.str "((") (some "sid") =
      (false, storeSetError [] "sid" "invalid syntax") :=
  ⟨rfl,
   C5_fails_closed.1 ceEnv [] "((" "invalid syntax" rfl,
   C5_fails_closed.2.1 ceEnv [] "((" "sid" "invalid syntax" rfl⟩

/-- A CONDITIONAL step whose condition argument is the literal
`"True"`. -/
def c7StepT : WorkflowStep :=
  { step_type := .conditional
    description := ""
    arguments := [("condition", Value.str "True")]
    condition := Option.none
    next_on_success := some "nx"
    next_on_failure := some "nf" }

/-- A CONDITIONAL step whose condition argument is the literal
`"False"`. -/
def c7StepF : WorkflowStep :=
  { c7StepT with arguments := [("condition", Value.str "False")] }

/-- Claim C7: a CONDITIONAL step with condition string `"True"`
produces a record whose `next_step` is the `next_on_success` of the step and
whose `condition` is true; with `"False"` it produces `next_step` equal
to `next_on_failure` and `condition` false (for any evaluator that
gives the Python meaning to the two literals). -/
theorem C7_conditional :
    (∀ (env : Env) (results : ResultStore) (step : WorkflowStep),
      step.step_type = WorkflowStepType.conditional →
      assocFind step.arguments "condition" = some (Value.str "True") →
      env.pyEval "True" = Except.ok true →
      executeStep env results step =
        ⟨Except.ok [("condition", Value.bool true),
                    ("next_step", optIdValue step.next_on_success)], []⟩) ∧
    (∀ (env : Env) (results : ResultStore) (step : WorkflowStep),
      step.step_type = WorkflowStepType.conditional →
      assocFind step.arguments "condition" = some (Value.str "False") →
      env.pyEval "False" = Except.ok false →
      executeStep env results step =
        ⟨Except.ok [("condition", Value.bool false),
                    ("next_step", optIdValue step.next_on_failure)], []⟩) := by
  constructor
  · intro env results step ht hc he
    obtain ⟨stype, desc, args, cond, ns, nf⟩ := step
    simp only at ht hc
    subst ht
    have hsub : substPlaceholders results "True" = "True" :=
      substPlaceholders_no_brace results "True" (by decide)
    simp [executeStep, hc, evaluateCondition, hsub, he]
  · intro env results step ht hc he
    obtain ⟨stype, desc, args, cond, ns, nf⟩ := step
    simp only at ht hc
    subst ht
    have hsub : substPlaceholders results "False" = "False" :=
      substPlaceholders_no_brace results "False" (by decide)
    simp [executeStep, hc, evaluateCondition, hsub, he]

/-- Claim C7 witness: the two parts of `C7_conditional` applied to the
concrete environment and steps. -/
theorem C7_witness :
    (c7StepT.step_type = WorkflowStepType.conditional ∧
      assocFind c7StepT.arguments "condition" = some (Value.str "True") ∧
      ceEnv.pyEval "True" = Except.ok true ∧
      executeStep ceEnv [] c7StepT =
        ⟨Except.ok [("condition", Value.bool true),
                    ("next_step", optIdValue c7StepT.next_on_success)], []⟩) ∧
    (c7StepF.step_type = WorkflowStepType.conditional ∧
      assocFind c7StepF.arguments "condition" = some (Value.str "False") ∧
      ceEnv.pyEval "False" = Except.ok false ∧
      executeStep ceEnv [] c7StepF =
        ⟨Except.ok [("condition", Value.bool false),
                    ("next_step", optIdValue c7StepF.next_on_failure)], []⟩) :=
  ⟨⟨rfl, rfl, rfl, C7_conditional.1 ceEnv [] c7StepT rfl rfl rfl⟩,
   ⟨rfl, rfl, rfl, C7_conditional.2 ceEnv [] c7StepF rfl rfl rfl⟩⟩

/-- Claim C1 counterexample: the CODE_EDITING step `"a"` on a
nonexistent file returns an `error` record, which is stored and not
raised — but traversal then continues at `next_on_success` `"b"`, not
at `next_on_failure` `"c"`. -/
theorem C1_counterexample :
    assocFind c1Wf.steps "a" = some c1Step ∧
    c1Step.next_on_failure = some "c" ∧
    c1Step.next_on_success = some "b" ∧
    execute ceEnv c1Wf 5 Option.none =
      RunResult.done
        [("a", [("error", Value.str "ファイル missing.py が見つかりません")]),
         ("b", [("input", Value.str "u")])]
        ["a", "b"] ∧
    (["a", "b"] : List String) ≠ ["a", "c"] :=
  ⟨rfl, rfl, rfl, by decide, by decide⟩

/-- Claim C1 (amended): when the execution of a step completes by returning
a record containing an `error` key, the engine stores that record under
the current identifier and does not raise, but transitions to the
`next_step` value of the record if present, else the
`next_on_success` of the step — error-bearing records are routed like successes;
only raised exceptions are routed to `next_on_failure`. -/
theorem C1_error_routing :
    ∀ (env : Env) (w : Workflow) (n : Nat) (cur : String)
      (step : WorkflowStep) (results : ResultStore)
      (visited : List String) (record : ResultRecord),
      cur ≠ "" →
      assocFind w.steps cur = some step →
      step.condition = Option.none →
      w.interactive_mode = false →
      (executeStep env results step).outcome = Except.ok record →
      assocFind record "error" ≠ Option.none →
      executeFrom env w (Nat.succ n) (some cur) results visited =
        executeFrom env w n (nextIdOf record step)
          (assocSet results cur record) (visited ++ [cur]) := by
  intro env w n cur step results visited record hcur hfind hcond hint
    hexec _herr
  simp [executeFrom, hcur, hfind, hcond, hexec, hint]

/-- Claim C1 witness: `C1_error_routing` applied to the concrete
workflow around `c1Step`. -/
theorem C1_witness :
    ("a" ≠ "") ∧
    assocFind c1Wf.steps "a" = some c1Step ∧
    c1Step.condition = Option.none ∧
    c1Wf.interactive_mode = false ∧
    (executeStep ceEnv [] c1Step).outcome =
      Except.ok [("error", Value.str "ファイル missing.py が見つかりません")] ∧
    assocFind [("error", Value.str "ファイル missing.py が見つかりません")]
      "error" ≠ Option.none ∧
    executeFrom ceEnv c1Wf 2 (some "a") [] [] =
      executeFrom ceEnv c1Wf 1
        (nextIdOf [("error", Value.str "ファイル missing.py が見つかりません")]
          c1Step)
        (assocSet [] "a"
          [("error", Value.str "ファイル missing.py が見つかりません")])
        ["a"] :=
  ⟨by decide, rfl, rfl, rfl, rfl, by decide,
   C1_error_routing ceEnv c1Wf 1 "a" c1Step [] []
     [("error", Value.str "ファイル missing.py が見つかりません")]
     (by decide) rfl rfl rfl rfl (by decide)⟩

/-- Claim C2 counterexample: a CONDITIONAL step missing its required
`condition` argument does not halt the traversal — the raised
`ValueError` is caught by the traversal loop, recorded as an `error`
result under `"c"`, and the run continues at `next_on_failure` `"d"`,
finishing normally. -/
theorem C2_counterexample :
    execute ceEnv c2Wf 5 Option.none =
      RunResult.done
        [("c", [("error", Value.str condRequiredMsg)]),
         ("d", [("input", Value.str "u")])]
        ["c", "d"] ∧
    assocFind c2Wf.steps "d" = some (uiStep Option.none Option.none) :=
  ⟨by decide, rfl⟩

/-- Claim C2 (amended): a missing start identifier and a current
identifier absent from the steps collection halt traversal with a
raised error; a missing required argument of a CONDITIONAL or LOOP step
raises inside the dispatcher, but the traversal catches it, records an
`error` result under the current identifier, and routes to
`next_on_failure` instead of halting. -/
theorem C2_config_errors :
    (∀ (env : Env) (w : Workflow) (fuel : Nat),
      (w.start_step = Option.none ∨ w.start_step = some "") →
      execute env w fuel Option.none =
        RunResult.raisedErr noStartMsg w.results []) ∧
    (∀ (env : Env) (w : Workflow) (n : Nat) (cur : String)
      (results : ResultStore) (visited : List String),
      cur ≠ "" →
      assocFind w.steps cur = Option.none →
      executeFrom env w (Nat.succ n) (some cur) results visited =
        RunResult.raisedErr (stepNotFoundMsg cur) results visited) ∧
    (∀ (env : Env) (w : Workflow) (n : Nat) (cur : String)
      (step : WorkflowStep) (results : ResultStore)
      (visited : List String),
      cur ≠ "" →
      assocFind w.steps cur = some step →
      step.condition = Option.none →
      step.step_type = WorkflowStepType.conditional →
      assocFind step.arguments "condition" = Option.none →
      executeFrom env w (Nat.succ n) (some cur) results visited =
        executeFrom env w n step.next_on_failure
          (assocSet results cur [("error", Value.str condRequiredMsg)])
          (visited ++ [cur])) ∧
    (∀ (env : Env) (w : Workflow) (n : Nat) (cur : String)
      (step : WorkflowStep) (results : ResultStore)
      (visited : List String),
      cur ≠ "" →
      assocFind w.steps cur = some step →
      step.condition = Option.none →
      step.step_type = WorkflowStepType.loop →
      assocFind step.arguments "condition" = Option.none →
      executeFrom env w (Nat.succ n) (some cur) results visited =
        executeFrom env w n step.next_on_failure
          (assocSet results cur [("error", Value.str loopRequiredMsg)])
          (visited ++ [cur])) := by
  refine ⟨?_, ?_, ?_, ?_⟩
  · intro env w fuel h
    cases h with
    | inl h0 => simp [execute, pyOrStr, h0]
    | inr h0 => simp [execute, pyOrStr, h0]
  · intro env w n cur results visited hcur hfind
    simp [executeFrom, hcur, hfind]
  · intro env w n cur step results visited hcur hfind hcond ht hc
    obtain ⟨stype, desc, args, cond, ns, nf⟩ := step
    simp only at ht hc hcond
    subst ht
    simp [executeFrom, hcur, hfind, hcond, executeStep, hc]
  · intro env w n cur step results visited hcur hfind hcond ht hc
    obtain ⟨stype, desc, args, cond, ns, nf⟩ := step
    simp only at ht hc hcond
    subst ht
    simp [executeFrom, hcur, hfind, hcond, executeStep, hc, pyIsNone]

/-- Claim C2 witness: the four clauses of `C2_config_errors` applied to
concrete workflows. -/
theorem C2_witness :
    emptyWorkflow.start_step = Option.none ∧
    execute ceEnv emptyWorkflow 3 Option.none =
      RunResult.raisedErr noStartMsg emptyWorkflow.results [] ∧
    assocFind c2Wf.steps "zz" = Option.none ∧
    executeFrom ceEnv c2Wf 1 (some "zz") [] [] =
      RunResult.raisedErr (stepNotFoundMsg "zz") [] [] ∧
    assocFind c2Step.arguments "condition" = Option.none ∧
    executeFrom ceEnv c2Wf 1 (some "c") [] [] =
      executeFrom ceEnv c2Wf 0 c2Step.next_on_failure
        (assocSet [] "c" [("error", Value.str condRequiredMsg)]) ["c"] ∧
    assocFind c2LoopStep.arguments "condition" = Option.none ∧
    executeFrom ceEnv c2LoopWf 1 (some "l") [] [] =
      executeFrom ceEnv c2LoopWf 0 c2LoopStep.next_on_failure
        (assocSet [] "l" [("error", Value.str loopRequiredMsg)]) ["l"] :=
  ⟨rfl,
   C2_config_errors.1 ceEnv emptyWorkflow 3 (Or.inl rfl),
   rfl,
   C2_config_errors.2.1 ceEnv c2Wf 0 "zz" [] [] (by decide) rfl,
   rfl,
   C2_config_errors.2.2.1 ceEnv c2Wf 0 "c" c2Step [] []
     (by decide) rfl rfl rfl rfl,
   rfl,
   C2_config_errors.2.2.2 ceEnv c2LoopWf 0 "l" c2LoopStep [] []
     (by decide) rfl rfl rfl rfl⟩

/-- Claim C10 counterexample: a FILE_OPERATION write whose `content`
argument is the literal empty string and which has no `previous_step`
writes the empty string as-is and succeeds, rather than never writing
it or producing an error result. -/
theorem C10_counterexample :
    assocFind c10Step.arguments "content" = some (Value.str "") ∧
    assocFind c10Step.arguments "previous_step" = Option.none ∧
    executeStep ceEnv [] c10Step =
      ⟨Except.ok [("filename", Value.str "out.txt"),
                  ("success", Value.bool true)], [("out.txt", "")]⟩ ∧
    assocFind [("filename", Value.str "out.txt"),
               ("success", Value.bool true)] "error" = Option.none :=
  ⟨by decide, by decide, rfl, by decide⟩

/-- Claim C10 (amended): for a FILE_OPERATION write whose `content` is
absent or the empty string, the engine first tries the `code` field of
the stored result of `previous_step` and writes that; when no such fallback
is available, an absent `content` yields an `error` result (the write
of `None` raises a TypeError that is caught), while an empty-string
`content` is written as-is and the step succeeds. -/
theorem C10_write_content :
    (∀ (env : Env) (results : ResultStore) (step : WorkflowStep)
      (fn prevId codeStr : String) (prevRec : ResultRecord),
      step.step_type = WorkflowStepType.file_operation →
      assocFind step.arguments "operation" = some (Value.str "write") →
      assocFind step.arguments "filename" = some (Value.str fn) →
      fn ≠ "" →
      (assocFind step.arguments "content" = Option.none ∨
        assocFind step.arguments "content" = some (Value.str "")) →
      assocFind step.arguments "previous_step" =
        some (Value.str prevId) →
      prevId ≠ "" →
      assocFind results prevId = some prevRec →
      assocFind prevRec "code" = some (Value.str codeStr) →
      env.writeFile fn codeStr = Except.ok () →
      executeStep env results step =
        ⟨Except.ok [("filename", Value.str fn),
                    ("success", Value.bool true)], [(fn, codeStr)]⟩) ∧
    (∀ (env : Env) (results : ResultStore) (step : WorkflowStep)
      (fn : String),
      step.step_type = WorkflowStepType.file_operation →
      assocFind step.arguments "operation" = some (Value.str "write") →
      assocFind step.arguments "filename" = some (Value.str fn) →
      fn ≠ "" →
      assocFind step.arguments "content" = Option.none →
      assocFind step.arguments "previous_step" = Option.none →
      executeStep env results step =
        ⟨Except.ok [("error", Value.str ("ファイル書き込みエラー: " ++
          writeTypeErrMsg Value.none))], []⟩) ∧
    (∀ (env : Env) (results : ResultStore) (step : WorkflowStep)
      (fn : String),
      step.step_type = WorkflowStepType.file_operation →
      assocFind step.arguments "operation" = some (Value.str "write") →
      assocFind step.arguments "filename" = some (Value.str fn) →
      fn ≠ "" →
      assocFind step.arguments "content" = some (Value.str "") →
      assocFind step.arguments "previous_step" = Option.none →
      env.writeFile fn "" = Except.ok () →
      executeStep env results step =
        ⟨Except.ok [("filename", Value.str fn),
                    ("success", Value.bool true)], [(fn, "")]⟩) := by
  refine ⟨?_, ?_, ?_⟩
  · intro env results step fn prevId codeStr prevRec ht hop hfn hfne
      hcont hprev hpne hres hcode hwrite
    obtain ⟨stype, desc, args, cond, ns, nf⟩ := step
    simp only at ht hop hfn hcont hprev
    subst ht
    cases hcont with
    | inl h0 =>
      simp [executeStep, hop, hfn, hfne, h0, hprev, hpne, hres, hcode,
        hwrite, pyTruthy, pyStrOpt, pyStrV]
    | inr h0 =>
      simp [executeStep, hop, hfn, hfne, h0, hprev, hpne, hres, hcode,
        hwrite, pyTruthy, pyStrOpt, pyStrV]
  · intro env results step fn ht hop hfn hfne hcont hprev
    obtain ⟨stype, desc, args, cond, ns, nf⟩ := step
    simp only at ht hop hfn hcont hprev
    subst ht
    simp [executeStep, hop, hfn, hfne, hcont, hprev, pyTruthy,
      pyStrOpt, pyStrV]
  · intro env results step fn ht hop hfn hfne hcont hprev hwrite
    obtain ⟨stype, desc, args, cond, ns, nf⟩ := step
    simp only at ht hop hfn hcont hprev
    subst ht
    simp [executeStep, hop, hfn, hfne, hcont, hprev, hwrite, pyTruthy,
      pyStrOpt, pyStrV]

/-- A FILE_OPERATION write step with empty `content` and a usable
`previous_step`. -/
def c10PrevStep : WorkflowStep :=
  { step_type := .file_operation
    description := ""
    arguments := [("operation", Value.str "write"),
                  ("filename", Value.str "out.txt"),
                  ("content", Value.str ""),
                  ("previous_step", Value.str "gen")]
    condition := Option.none
    next_on_success := Option.none
    next_on_failure := Option.none }

/-- A FILE_OPERATION write step with no `content` and no
`previous_step`. -/
def c10BareStep : WorkflowStep :=
  { step_type := .file_operation
    description := ""
    arguments := [("operation", Value.str "write"),
                  ("filename", Value.str "out.txt")]
    condition := Option.none
    next_on_success := Option.none
    next_on_failure := Option.none }

/-- Claim C10 witness: the three clauses of `C10_write_content` applied
to concrete write steps. -/
theorem C10_witness :
    assocFind [("gen", [("code", Value.str "xyz")])] "gen" =
      some [("code", Value.str "xyz")] ∧
    executeStep ceEnv [("gen", [("code", Value.str "xyz")])] c10PrevStep =
      ⟨Except.ok [("filename", Value.str "out.txt"),
                  ("success", Value.bool true)], [("out.txt", "xyz")]⟩ ∧
    executeStep ceEnv [] c10BareStep =
      ⟨Except.ok [("error", Value.str ("ファイル書き込みエラー: " ++
        writeTypeErrMsg Value.none))], []⟩ ∧
    executeStep ceEnv [] c10Step =
      ⟨Except.ok [("filename", Value.str "out.txt"),
                  ("success", Value.bool true)], [("out.txt", "")]⟩ :=
  ⟨by decide,
   C10_write_content.1 ceEnv [("gen", [("code", Value.str "xyz")])]
     c10PrevStep "out.txt" "gen" "xyz" [("code", Value.str "xyz")]
     rfl rfl rfl (by decide) (Or.inr rfl) rfl (by decide) rfl rfl rfl,
   C10_write_content.2.1 ceEnv [] c10BareStep "out.txt"
     rfl rfl rfl (by decide) rfl rfl,
   C10_write_content.2.2 ceEnv [] c10Step "out.txt"
     rfl rfl rfl (by decide) rfl rfl rfl⟩

theorem stepTypeValue_ofString (s : String) (t : WorkflowStepType)
    (h : stepTypeOfString s = some t) : stepTypeValue t = s := by
  unfold stepTypeOfString at h
  split_ifs at h <;>
    (simp only [Option.some_inj] at h
     subst h
     simp_all [stepTypeValue])

theorem stepToDict_stepFromDict (d : StepDoc) (st : WorkflowStep)
    (h : stepFromDict d = some st) : stepToDict st = d := by
  unfold stepFromDict at h
  cases ht : stepTypeOfString d.step_type with
  | none => rw [ht] at h; simp at h
  | some t =>
    rw [ht] at h
    simp at h
    obtain ⟨dn, dd, da, dc, dns, dnf⟩ := d
    subst h
    simp only [stepToDict]
    simp_all [stepTypeValue_ofString _ _ ht]

theorem decodeSteps_spec :
    ∀ (l : List (String × StepDoc)) (acc : List (String × WorkflowStep))
      (out : List (String × WorkflowStep)),
      (l.map Prod.fst).Nodup →
      (∀ k, k ∈ l.map Prod.fst → assocFind acc k = Option.none) →
      decodeSteps acc l = some out →
      out.map (fun p => (p.1, stepToDict p.2)) =
        acc.map (fun p => (p.1, stepToDict p.2)) ++ l := by
  intro l
  induction l with
  | nil =>
    intro acc out _ _ h
    simp only [decodeSteps, Option.some_inj] at h
    subst h
    simp
  | cons p rest ih =>
    obtain ⟨k, d⟩ := p
    intro acc out hnd hfresh h
    simp only [decodeSteps] at h
    split at h
    · rename_i st hd
      have hfk : assocFind acc k = Option.none := hfresh k (by simp)
      rw [assocSet_fresh acc k st hfk] at h
      have hnd0 : (List.map Prod.fst ((k, d) :: rest)).Nodup := hnd
      simp only [List.map_cons, List.nodup_cons] at hnd0
      have hfresh2 : ∀ k2, k2 ∈ rest.map Prod.fst →
          assocFind (acc ++ [(k, st)]) k2 = Option.none := by
        intro k2 hk2
        rw [assocFind_append]
        rw [hfresh k2 (by simp [hk2])]
        have hne : ¬(k = k2) := by
          intro he
          exact hnd0.1 (he ▸ hk2)
        simp [assocFind, hne]
      have hout := ih (acc ++ [(k, st)]) out hnd0.2 hfresh2 h
      rw [hout]
      have hsd := stepToDict_stepFromDict d st hd
      simp [hsd]
    · simp at h

/-- Claim C3: decoding a well-formed workflow document with `from_dict`
on a fresh workflow and re-encoding with `to_dict` yields the original
document field-for-field (well-formed: the steps mapping has no
duplicate identifiers, and decoding succeeds, which forces every
`step_type` string to be a recognized enum value). -/
theorem C3_roundtrip :
    ∀ (d : WorkflowDoc) (w : Workflow),
      (d.steps.map Prod.fst).Nodup →
      fromDict emptyWorkflow d = some w →
      toDict w = d := by
  intro d w hnd h
  unfold fromDict at h
  cases hds : decodeSteps emptyWorkflow.steps d.steps with
  | none => rw [hds] at h; simp at h
  | some out =>
    rw [hds] at h
    simp at h
    subst h
    have hspec := decodeSteps_spec d.steps emptyWorkflow.steps out hnd
      (fun k _ => rfl) hds
    obtain ⟨dn, dd, dss, dst⟩ := d
    simp only [emptyWorkflow, List.map_nil, List.nil_append] at hspec
    simp [toDict, hspec]

/-- A concrete well-formed workflow document. -/
def c3Doc : WorkflowDoc :=
  { name := "wf"
    description := "dd"
    start_step := some "s1"
    steps :=
      [("s1",
        { step_type := "code_generation"
          description := "g"
          arguments := [("task", Value.str "t")]
          condition := Option.none
          next_on_success := some "s2"
          next_on_failure := Option.none }),
       ("s2",
        { step_type := "conditional"
          description := "c"
          arguments := [("condition", Value.str "True")]
          condition := some "True"
          next_on_success := Option.none
          next_on_failure := Option.none })] }

/-- The workflow `c3Doc` decodes to. -/
def c3DecWf : Workflow :=
  { name := "wf"
    description := "dd"
    steps :=
      [("s1",
        { step_type := .code_generation
          description := "g"
          arguments := [("task", Value.str "t")]
          condition := Option.none
          next_on_success := some "s2"
          next_on_failure := Option.none }),
       ("s2",
        { step_type := .conditional
          description := "c"
          arguments := [("condition", Value.str "True")]
          condition := some "True"
          next_on_success := Option.none
          next_on_failure := Option.none })]
    start_step := some "s1"
    results := []
    interactive_mode := false }

/-- Claim C3 witness: the round trip on the concrete document. -/
theorem C3_witness :
    (c3Doc.steps.map Prod.fst).Nodup ∧
    fromDict emptyWorkflow c3Doc = some c3DecWf ∧
    toDict c3DecWf = c3Doc :=
  ⟨by decide, by decide, C3_roundtrip c3Doc c3DecWf (by decide) (by decide)⟩

/-- Claim C8 counterexample: in a workflow where the empty string is a
genuine step identifier and the successor of `"a"`, the claimed chain
visits `["a", ""]`, but the traversal stops after `"a"` because
`while current_step_id:` is a truthiness test that treats the empty
string like `None`. -/
theorem C8_counterexample :
    execute ceEnv c8Wf 5 Option.none =
      RunResult.done [("a", [("input", Value.str "u")])] ["a"] ∧
    specChain c8Wf.steps 5 (some "a") = ["a", ""] ∧
    assocFind c8Wf.steps "" = some (uiStep Option.none Option.none) ∧
    (["a"] : List String) ≠ ["a", ""] :=
  ⟨by decide, by decide, rfl, by decide⟩

/-- Claim C8 (amended): for a non-interactive workflow whose steps have
no guard condition and whose executions all complete normally with
records lacking a `next_step` key, the traversal visits exactly the
chain `start → next_on_success → …` until an identifier is absent
(None), the empty string, or missing from the steps collection. -/
theorem C8_chain :
    ∀ (env : Env) (w : Workflow) (fuel : Nat) (cur : Option String)
      (results : ResultStore) (visited : List String),
      w.interactive_mode = false →
      (∀ id step, assocFind w.steps id = some step →
        step.condition = Option.none) →
      (∀ id step rs, assocFind w.steps id = some step →
        ∃ record, (executeStep env rs step).outcome = Except.ok record ∧
          assocFind record "next_step" = Option.none) →
      visitedOf (executeFrom env w fuel cur results visited) =
        visited ++ codeChain w.steps fuel cur := by
  intro env w fuel
  induction fuel with
  | zero =>
    intro cur results visited hint hcond hexec
    cases cur with
    | none => simp [executeFrom, codeChain, visitedOf]
    | some s =>
      by_cases hs : s = "" <;>
        simp [executeFrom, codeChain, visitedOf, hs]
  | succ n ih =>
    intro cur results visited hint hcond hexec
    cases cur with
    | none => simp [executeFrom, codeChain, visitedOf]
    | some s =>
      by_cases hs : s = ""
      · simp [executeFrom, codeChain, visitedOf, hs]
      · cases hfind : assocFind w.steps s with
        | none => simp [executeFrom, codeChain, visitedOf, hs, hfind]
        | some step =>
          obtain ⟨record, hok, hns⟩ := hexec s step results hfind
          have hnext : nextIdOf record step = step.next_on_success := by
            simp [nextIdOf, hns]
          have hone :
              executeFrom env w (Nat.succ n) (some s) results visited =
                executeFrom env w n step.next_on_success
                  (assocSet results s record) (visited ++ [s]) := by
            simp [executeFrom, hs, hfind, hcond s step hfind, hok, hint,
              hnext]
          rw [hone, ih step.next_on_success (assocSet results s record)
            (visited ++ [s]) hint hcond hexec]
          simp [codeChain, hs, hfind]

/-- A two-step chain workflow for the C8 witness. -/
def c8WitWf : Workflow :=
  { name := ""
    description := ""
    steps := [("p", uiStep (some "q") Option.none),
              ("q", uiStep Option.none Option.none)]
    start_step := some "p"
    results := []
    interactive_mode := false }

/-- Claim C8 witness: `C8_chain` applied to the concrete chain
workflow. -/
theorem C8_witness :
    c8WitWf.interactive_mode = false ∧
    (∀ id step, assocFind c8WitWf.steps id = some step →
      step.condition = Option.none) ∧
    (∀ id step rs, assocFind c8WitWf.steps id = some step →
      ∃ record, (executeStep ceEnv rs step).outcome = Except.ok record ∧
        assocFind record "next_step" = Option.none) ∧
    visitedOf (executeFrom ceEnv c8WitWf 5 (some "p") [] []) =
      [] ++ codeChain c8WitWf.steps 5 (some "p") := by
  have hcond : ∀ id step, assocFind c8WitWf.steps id = some step →
      step.condition = Option.none := by
    intro id step h
    simp only [c8WitWf, assocFind] at h
    split_ifs at h <;> (cases h; rfl)
  have hexec : ∀ id step rs, assocFind c8WitWf.steps id = some step →
      ∃ record, (executeStep ceEnv rs step).outcome = Except.ok record ∧
        assocFind record "next_step" = Option.none := by
    intro id step rs h
    simp only [c8WitWf, assocFind] at h
    split_ifs at h <;>
      (cases h; exact ⟨[("input", Value.str "u")], rfl, rfl⟩)
  exact ⟨rfl, hcond, hexec,
    C8_chain ceEnv c8WitWf 5 (some "p") [] [] rfl hcond hexec⟩

end CliAgent
